import Mathlib

/-!
Shallow embedding of the bilibili live-monitor plugin (src/main.py) and
proofs about its configuration parser, per-room state machine, anchor-name
cache, notification queue and inbound-message handler.

Python strings are modelled as lists of characters; timestamps as natural
numbers (epoch seconds); HTTP calls as function parameters returning an
`Option` (`none` models a raised exception / failed fetch); Python dicts as
insertion-ordered association lists.
-/

set_option autoImplicit false

namespace LiveMonitor

/-- A Python string, modelled as its list of characters. -/
abbrev Str := List Char

/-- Coerce a Lean string literal into the model type. -/
def S (s : String) : Str := s.data

/-- Python `str.split(sep)` with a one-character separator: cuts at every
occurrence of `sep`; the empty string yields a single empty token. -/
def pySplit (sep : Char) : Str → List Str
  | [] => [[]]
  | c :: cs =>
    if c = sep then [] :: pySplit sep cs
    else
      match pySplit sep cs with
      | [] => [[c]]
      | t :: ts => (c :: t) :: ts

/-- Python `str.split(sep, 1)`: cut at the first occurrence of `sep` if any,
returning the part before and everything after it. -/
def splitOnce (sep : Char) : Str → Option (Str × Str)
  | [] => none
  | c :: cs =>
    if c = sep then some ([], cs)
    else
      match splitOnce sep cs with
      | some p => some (c :: p.1, p.2)
      | none => none

/-- The characters removed by Python `str.strip()` (ASCII whitespace). -/
def isPySpace (c : Char) : Bool :=
  c = ' ' || c = '\t' || c = '\n' || c = '\r' || c = '\x0b' || c = '\x0c'

/-- Python `str.strip()`: drop leading and trailing whitespace. -/
def pyStrip (s : Str) : Str :=
  ((s.dropWhile isPySpace).reverse.dropWhile isPySpace).reverse

/-- Python `str.lower()` (restricted to the ASCII range used here). -/
def pyLower (s : Str) : Str := s.map Char.toLower

/-- One parsed configuration entry: a room identifier and the group its
notifications are addressed to. -/
structure RoomConfig where
  room_id : Str
  group_id : Str
deriving DecidableEq, Repr

/-- Transcription of `parse_room_configs` (src/main.py lines 36-50): split the
configuration string on commas; every token containing a colon contributes one
`RoomConfig`, splitting at the first colon and stripping both sides; tokens
without a colon are skipped (warning only). -/
def parse_room_configs (room_configs : Str) : List RoomConfig :=
  (pySplit ',' room_configs).foldl
    (fun rooms config =>
      match splitOnce ':' config with
      | some p => rooms ++ [{ room_id := pyStrip p.1, group_id := pyStrip p.2 }]
      | none => rooms)
    []

/-- Lookup in an insertion-ordered association list (Python dict read). -/
def alookup {α : Type} : List (Str × α) → Str → Option α
  | [], _ => none
  | (k, v) :: rest, key => if k = key then some v else alookup rest key

/-- Write in an insertion-ordered association list (Python dict write):
overwrite the first matching key in place, or append a new entry. -/
def aset {α : Type} : List (Str × α) → Str → α → List (Str × α)
  | [], key, v => [(key, v)]
  | (k, w) :: rest, key, v =>
    if k = key then (key, v) :: rest else (k, w) :: aset rest key v

/-- One pending notification as stored in `room_status[room_id]['notifications']`
(src/main.py lines 147-150). -/
structure Notification where
  message : Str
  group_id : Str
deriving DecidableEq, Repr

/-- Per-room tracking record (src/main.py lines 105-110).  The lazily added
`notifications` key is modelled as a list defaulting to `[]`. -/
structure RoomState where
  last_status : Option Nat := none
  live_start_time : Option Nat := none
  last_check_time : Option Nat := none
  notifications : List Notification := []
deriving DecidableEq, Repr

/-- A successful result of `check_live_status` (src/main.py lines 68-82): the
fields of the response the monitor reads, plus the sampling timestamp. -/
structure Sample where
  room_id : Str
  live_status : Nat
  live_time : Nat
  timestamp : Nat
deriving DecidableEq, Repr

/-- The observable effect of the status-change branch of `monitor_task`:
which room changed, the direction, and the message text built for it. -/
structure TransitionEvent where
  room_id : Str
  became_live : Bool
  message : Str
deriving DecidableEq, Repr

/-- The room-info HTTP call made by `get_anchor_info`, as a parameter:
`none` models a raised exception (timeout, network error, malformed payload);
otherwise the response envelope code and the anchor `uname`. -/
abbrev AnchorFetch := Str → Option (Int × Str)

/-- Transcription of `get_anchor_info` (src/main.py lines 52-66): perform the
fetch; on a code-0 response store the uname in `anchor_names` and return it;
on any failure return the synthesized fallback without touching the cache. -/
def get_anchor_info (fetch : AnchorFetch) (anchor_names : List (Str × Str))
    (room_id : Str) : Str × List (Str × Str) :=
  match fetch room_id with
  | some (code, uname) =>
    if code = 0 then (uname, aset anchor_names room_id uname)
    else (S "主播" ++ room_id, anchor_names)
  | none => (S "主播" ++ room_id, anchor_names)

/-- The target-group scan of `monitor_task` (src/main.py lines 137-141): the
group of the first configuration entry matching the room, if any. -/
def findGroup : List RoomConfig → Str → Option Str
  | [], _ => none
  | c :: rest, room_id =>
    if c.room_id = room_id then some c.group_id else findGroup rest room_id

/-- The shared mutable state of the plugin touched by the monitor loop:
`room_status` and the `anchor_names` cache (src/main.py lines 26-27). -/
structure MonitorState where
  room_status : List (Str × RoomState)
  anchor_names : List (Str × Str)
deriving DecidableEq, Repr

/-- Transcription of the body of the results loop in `monitor_task`
(src/main.py lines 92-154) for one entry.  `none` models a failed fetch
(`check_live_status` returned `None`, or `gather` delivered an exception):
the room is skipped.  Returns the updated state and the transition event when
the status-change branch ran. -/
def applySample (cfgs : List RoomConfig) (fetch : AnchorFetch)
    (st : MonitorState) (result : Option Sample) :
    MonitorState × Option TransitionEvent :=
  match result with
  | none => (st, none)
  | some s =>
    let info := (alookup st.room_status s.room_id).getD {}
    match info.last_status with
    | none =>
      let info := { info with
        last_status := some s.live_status,
        live_start_time :=
          if s.live_status = 1 then some s.live_time else info.live_start_time,
        last_check_time := some s.timestamp }
      ({ st with room_status := aset st.room_status s.room_id info }, none)
    | some last =>
      if s.live_status ≠ last then
        let fetched := get_anchor_info fetch st.anchor_names s.room_id
        let message :=
          if s.live_status = 1 then
            fetched.1 ++ S " 开播了！\n传送门：https://live.bilibili.com/" ++ s.room_id
          else
            fetched.1 ++ S " 的直播已结束。"
        let info := { info with
          live_start_time := if s.live_status = 1 then some s.live_time else none,
          last_status := some s.live_status }
        let info :=
          match findGroup cfgs s.room_id with
          | some target_group =>
            if target_group ≠ [] then
              { info with notifications :=
                  info.notifications ++ [Notification.mk message target_group] }
            else info
          | none => info
        let status2 := aset st.room_status s.room_id
          ({ info with last_check_time := some s.timestamp })
        ({ room_status := status2, anchor_names := fetched.2 },
         some ⟨s.room_id, s.live_status == 1, message⟩)
      else
        let status2 := aset st.room_status s.room_id
          ({ info with last_check_time := some s.timestamp })
        ({ st with room_status := status2 }, none)

/-- One pass of the results loop over a whole cycle (state part only);
successive cycles compose by concatenating their results lists. -/
def monitorCycle (cfgs : List RoomConfig) (fetch : AnchorFetch)
    (st : MonitorState) (results : List (Option Sample)) : MonitorState :=
  results.foldl (fun st r => (applySample cfgs fetch st r).1) st

/-- Python `list.remove`: delete the first occurrence of an element. -/
def listRemove {α : Type} [DecidableEq α] : List α → α → List α
  | [], _ => []
  | x :: xs, y => if x = y then xs else x :: listRemove xs y

/-- The notification sweep of `on_group_message` for one room (src/main.py
lines 200-204): iterate over a copy of the list, collect the messages whose
group matches, and `remove` each collected element from the live list. -/
def drainRoom (group_id : Str) (notifs : List Notification) :
    List Str × List Notification :=
  let matched := notifs.filter (fun n => n.group_id = group_id)
  (matched.map Notification.message, matched.foldl listRemove notifs)

/-- The full drain of `on_group_message` (src/main.py lines 197-208): sweep
every room in `room_status` order, returning the released messages and the
updated map. -/
def drainGroup (room_status : List (Str × RoomState)) (group_id : Str) :
    List Str × List (Str × RoomState) :=
  match room_status with
  | [] => ([], [])
  | (r, info) :: rest =>
    let d := drainRoom group_id info.notifications
    let drest := drainGroup rest group_id
    (d.1 ++ drest.1, (r, { info with notifications := d.2 }) :: drest.2)

/-- Decimal rendering of a natural number (Python str of an int). -/
def natStr (n : Nat) : Str := (Nat.repr n).data

/-- Transcription of `get_live_info` (src/main.py lines 161-190).  `result`
is the outcome of the fresh `check_live_status` call; `now` models
`datetime.now()`; `fmt` models `datetime.strftime("%Y-%m-%d %H:%M:%S")`. -/
def get_live_info (result : Option Sample) (anchor_names : List (Str × Str))
    (room_status : List (Str × RoomState)) (now : Nat) (fmt : Nat → Str)
    (room_id : Str) : Str :=
  match result with
  | none => S "直播间 " ++ room_id ++ S "：无法获取直播信息"
  | some res =>
    let anchor_name := (alookup anchor_names room_id).getD (S "主播" ++ room_id)
    let status_text := if res.live_status = 1 then S "直播中" else S "未开播"
    let info0 := S "主播: " ++ anchor_name ++ S "\n直播间ID: " ++ room_id
      ++ S "\n状态: " ++ status_text ++ S "\n"
    let room_info := (alookup room_status room_id).getD {}
    let info1 :=
      if res.live_status = 1 then
        match room_info.live_start_time with
        | some t =>
          let dur := now - t
          info0 ++ S "开播时间: " ++ fmt t ++ S "\n"
            ++ S "直播时长: " ++ natStr (dur / 3600) ++ S "小时"
            ++ natStr (dur % 3600 / 60) ++ S "分钟"
            ++ natStr (dur % 3600 % 60) ++ S "秒\n"
        | none => info0 ++ S "开播时间: 未知\n"
      else info0
    let info2 :=
      match room_info.last_check_time with
      | some t => info1 ++ S "最后检查时间: " ++ fmt t ++ S "\n"
      | none => info1
    info2 ++ S "直播间链接: 链接1" ++ room_id

/-- Transcription of `on_group_message` (src/main.py lines 192-222).
`fetch_status` models the per-room `check_live_status` call that
`get_live_info` performs.  Returns the ordered replies yielded to the event
and the updated `room_status`. -/
def on_group_message (cfgs : List RoomConfig) (fetch_status : Str → Option Sample)
    (anchor_names : List (Str × Str)) (room_status : List (Str × RoomState))
    (now : Nat) (fmt : Nat → Str) (group_id : Str) (message_raw : Str) :
    List Str × List (Str × RoomState) :=
  let message_str := pyLower (pyStrip message_raw)
  let d := drainGroup room_status group_id
  if message_str = S "liveinfo" then
    let info_lines := cfgs.filterMap (fun c =>
      if c.group_id = group_id then
        some (get_live_info (fetch_status c.room_id) anchor_names d.2 now fmt c.room_id)
      else none)
    if info_lines.isEmpty then
      (d.1 ++ [S "该群没有配置监控的直播间"], d.2)
    else
      (d.1 ++ [S "直播间状态\n" ++ S "\n" ++ List.replicate 20 '='
        ++ List.intercalate (S "\n") info_lines], d.2)
  else (d.1, d.2)

/-! ### Lemmas about the string model and the parser -/

theorem splitOnce_eq_some (sep : Char) :
    ∀ t a b : Str, splitOnce sep t = some (a, b) → t = a ++ sep :: b ∧ sep ∉ a := by
  intro t
  induction t with
  | nil => intro a b h; simp [splitOnce] at h
  | cons c cs ih =>
    intro a b h
    by_cases hc : c = sep
    · rw [splitOnce, if_pos hc] at h
      injection h with h1
      injection h1 with ha hb
      subst ha; subst hb; subst hc
      simp
    · rw [splitOnce, if_neg hc] at h
      cases hp : splitOnce sep cs with
      | none => rw [hp] at h; simp at h
      | some p =>
        rw [hp] at h
        simp at h
        obtain ⟨ha, hb⟩ := h
        obtain ⟨ht, hm⟩ := ih p.1 p.2 (by rw [hp])
        subst ha; subst hb
        constructor
        · rw [ht]; rfl
        · intro hmem
          rcases List.mem_cons.mp hmem with h1 | h1
          · exact hc h1.symm
          · exact hm h1

theorem splitOnce_isSome (sep : Char) :
    ∀ s : Str, (splitOnce sep s).isSome ↔ sep ∈ s := by
  intro s
  induction s with
  | nil => simp [splitOnce]
  | cons c cs ih =>
    by_cases hc : c = sep
    · subst hc; simp [splitOnce]
    · rw [splitOnce, if_neg hc, List.mem_cons]
      cases hp : splitOnce sep cs with
      | none =>
        rw [hp] at ih
        simp at ih
        simp [ih, Ne.symm hc]
      | some p =>
        rw [hp] at ih
        simp at ih
        simp [ih]

theorem splitOnce_append (sep : Char) :
    ∀ a b : Str, sep ∉ a → splitOnce sep (a ++ sep :: b) = some (a, b) := by
  intro a
  induction a with
  | nil => intro b _; simp [splitOnce]
  | cons c cs ih =>
    intro b h
    simp at h
    have hc : ¬ c = sep := fun hcs => h.1 hcs.symm
    simp [splitOnce, hc, ih b h.2]

theorem pySplit_no_sep (sep : Char) :
    ∀ s : Str, sep ∉ s → pySplit sep s = [s] := by
  intro s
  induction s with
  | nil => intro _; rfl
  | cons c cs ih =>
    intro h
    simp at h
    have hc : ¬ c = sep := fun hcs => h.1 hcs.symm
    simp [pySplit, hc, ih h.2]

theorem parse_room_configs_go :
    ∀ (l : List Str) (acc : List RoomConfig),
      l.foldl (fun rooms config =>
        match splitOnce ':' config with
        | some p => rooms ++ [{ room_id := pyStrip p.1, group_id := pyStrip p.2 }]
        | none => rooms) acc
      = acc ++ l.filterMap (fun t => (splitOnce ':' t).map
          (fun p => { room_id := pyStrip p.1, group_id := pyStrip p.2 })) := by
  intro l
  induction l with
  | nil => intro acc; simp
  | cons c cs ih =>
    intro acc
    cases h : splitOnce ':' c with
    | none => simp [List.foldl_cons, List.filterMap_cons, h, ih]
    | some p => simp [List.foldl_cons, List.filterMap_cons, h, ih]

theorem length_filterMap_eq {α β : Type} (f : α → Option β) :
    ∀ l : List α, (l.filterMap f).length = (l.filter (fun a => (f a).isSome)).length := by
  intro l
  induction l with
  | nil => rfl
  | cons c cs ih =>
    cases h : f c with
    | none => simp [List.filterMap_cons, List.filter_cons, h, ih]
    | some b => simp [List.filterMap_cons, List.filter_cons, h, ih]

/-- C7: for every configuration string, the parser emits exactly one
`RoomConfig` per comma token containing a colon (with both sides of the first
colon stripped), in input order, skipping colonless tokens, and the empty
string parses to the empty registry. -/
theorem parser_token_spec :
    (∀ t : Str, (splitOnce ':' t).isSome ↔ ':' ∈ t)
    ∧ (∀ s : Str, parse_room_configs s
        = (pySplit ',' s).filterMap (fun t => (splitOnce ':' t).map
            (fun p => { room_id := pyStrip p.1, group_id := pyStrip p.2 })))
    ∧ (∀ s : Str, (parse_room_configs s).length
        = ((pySplit ',' s).filter (fun t => (splitOnce ':' t).isSome)).length)
    ∧ parse_room_configs (S "") = [] := by
  have hform : ∀ s : Str, parse_room_configs s
      = (pySplit ',' s).filterMap (fun t => (splitOnce ':' t).map
          (fun p => { room_id := pyStrip p.1, group_id := pyStrip p.2 })) := by
    intro s
    unfold parse_room_configs
    simpa using parse_room_configs_go (pySplit ',' s) []
  refine ⟨fun t => splitOnce_isSome ':' t, hform, fun s => ?_, by decide⟩
  rw [hform s, length_filterMap_eq]
  have : ∀ t : Str,
      (((splitOnce ':' t).map (fun p =>
          ({ room_id := pyStrip p.1, group_id := pyStrip p.2 } : RoomConfig))).isSome)
        = (splitOnce ':' t).isSome := by
    intro t; cases h : splitOnce ':' t <;> simp [h]
  simp only [this]

/-- C10: a token is cut at its first colon only: the emitted `room_id` is the
stripped text before the first colon and the `group_id` the stripped remainder,
colons included; e.g. the token 1:2:3 parses to room 1 with group 2:3. -/
theorem parser_first_colon :
    (∀ t a b : Str, splitOnce ':' t = some (a, b) → t = a ++ ':' :: b ∧ ':' ∉ a)
    ∧ (∀ a b : Str, ':' ∉ a → ',' ∉ a → ',' ∉ b →
        parse_room_configs (a ++ ':' :: b)
          = [{ room_id := pyStrip a, group_id := pyStrip b }])
    ∧ parse_room_configs (S "1:2:3") = [{ room_id := S "1", group_id := S "2:3" }] := by
  refine ⟨splitOnce_eq_some ':', fun a b hca hma hmb => ?_, by decide⟩
  have hsep : ',' ∉ a ++ ':' :: b := by
    simp [hma, hmb]
  rw [parse_room_configs]
  rw [pySplit_no_sep ',' _ hsep]
  simp [splitOnce_append ':' a b hca]

/-- Witness for `parser_first_colon` at a concrete multi-colon token. -/
theorem parser_first_colon_witness :
    parse_room_configs (S "77" ++ ':' :: S "88:99")
      = [{ room_id := S "77", group_id := S "88:99" }] := by
  rw [parser_first_colon.2.1 (S "77") (S "88:99") (by decide) (by decide) (by decide)]
  decide

/-! ### Lemmas about the association-list maps -/

theorem alookup_aset_self {α : Type} :
    ∀ (m : List (Str × α)) (k : Str) (v : α), alookup (aset m k v) k = some v := by
  intro m k v
  induction m with
  | nil => simp [aset, alookup]
  | cons q rest ih =>
    obtain ⟨k0, v0⟩ := q
    by_cases h : k0 = k
    · simp [aset, h, alookup]
    · simp [aset, h, alookup, ih]

theorem alookup_aset_ne {α : Type} :
    ∀ (m : List (Str × α)) (key k : Str) (v : α), k ≠ key →
      alookup (aset m key v) k = alookup m k := by
  intro m key k v hne
  induction m with
  | nil => simp [aset, alookup, Ne.symm hne]
  | cons q rest ih =>
    obtain ⟨k0, v0⟩ := q
    by_cases h : k0 = key
    · subst h
      simp [aset, alookup, Ne.symm hne]
    · by_cases hk : k0 = k
      · subst hk
        simp [aset, h, alookup]
      · simp [aset, h, alookup, hk, ih]

theorem aset_mem {α : Type} :
    ∀ (m : List (Str × α)) (key : Str) (v : α) (q : Str × α),
      q ∈ aset m key v → q = (key, v) ∨ q ∈ m := by
  intro m key v q
  induction m with
  | nil =>
    intro h
    simp [aset] at h
    left; exact h
  | cons p rest ih =>
    obtain ⟨k0, v0⟩ := p
    by_cases h : k0 = key
    · intro hq
      simp only [aset, if_pos h] at hq
      rcases List.mem_cons.mp hq with h1 | h1
      · left; exact h1
      · right; exact List.mem_cons_of_mem _ h1
    · intro hq
      simp only [aset, if_neg h] at hq
      rcases List.mem_cons.mp hq with h1 | h1
      · right; exact h1 ▸ List.mem_cons_self _ _
      · rcases ih h1 with h2 | h2
        · left; exact h2
        · right; exact List.mem_cons_of_mem _ h2

/-! ### Branch equations for applySample -/

theorem applySample_none (cfgs : List RoomConfig) (fetch : AnchorFetch)
    (st : MonitorState) : applySample cfgs fetch st none = (st, none) := rfl

theorem applySample_first (cfgs : List RoomConfig) (fetch : AnchorFetch)
    (st : MonitorState) (s : Sample)
    (h : ((alookup st.room_status s.room_id).getD {}).last_status = none) :
    applySample cfgs fetch st (some s)
      = (MonitorState.mk
          (aset st.room_status s.room_id
            ({ (alookup st.room_status s.room_id).getD {} with
               last_status := some s.live_status,
               live_start_time :=
                 if s.live_status = 1 then some s.live_time
                 else ((alookup st.room_status s.room_id).getD {}).live_start_time,
               last_check_time := some s.timestamp }))
          st.anchor_names, none) := by
  simp [applySample, h]

theorem applySample_same (cfgs : List RoomConfig) (fetch : AnchorFetch)
    (st : MonitorState) (s : Sample) (last : Nat)
    (h : ((alookup st.room_status s.room_id).getD {}).last_status = some last)
    (he : s.live_status = last) :
    applySample cfgs fetch st (some s)
      = (MonitorState.mk
          (aset st.room_status s.room_id
            ({ (alookup st.room_status s.room_id).getD {} with
               last_check_time := some s.timestamp }))
          st.anchor_names, none) := by
  simp [applySample, h, he]

theorem applySample_change (cfgs : List RoomConfig) (fetch : AnchorFetch)
    (st : MonitorState) (s : Sample) (last : Nat)
    (h : ((alookup st.room_status s.room_id).getD {}).last_status = some last)
    (hne : s.live_status ≠ last) :
    applySample cfgs fetch st (some s)
      = (let fetched := get_anchor_info fetch st.anchor_names s.room_id
         let message :=
           if s.live_status = 1 then
             fetched.1 ++ S " 开播了！\n传送门：https://live.bilibili.com/" ++ s.room_id
           else
             fetched.1 ++ S " 的直播已结束。"
         let info := { (alookup st.room_status s.room_id).getD {} with
           live_start_time := if s.live_status = 1 then some s.live_time else none,
           last_status := some s.live_status }
         let info :=
           match findGroup cfgs s.room_id with
           | some target_group =>
             if target_group ≠ [] then
               { info with notifications :=
                   info.notifications ++ [Notification.mk message target_group] }
             else info
           | none => info
         ({ room_status := aset st.room_status s.room_id
              ({ info with last_check_time := some s.timestamp }),
            anchor_names := fetched.2 },
          some ⟨s.room_id, s.live_status == 1, message⟩)) := by
  simp [applySample, h, hne]

/-! ### The per-room state machine -/

/-- C3: a sample produces a transition event exactly when a prior stored
status exists for the room and differs from the sample's status; in
particular the first sample for a room never produces an event. -/
theorem transition_event_iff :
    ∀ (cfgs : List RoomConfig) (fetch : AnchorFetch) (st : MonitorState) (s : Sample),
      ((applySample cfgs fetch st (some s)).2.isSome
        ↔ ∃ info last, alookup st.room_status s.room_id = some info
            ∧ info.last_status = some last ∧ last ≠ s.live_status)
      ∧ (alookup st.room_status s.room_id = none →
          (applySample cfgs fetch st (some s)).2 = none) := by
  intro cfgs fetch st s
  cases halo : alookup st.room_status s.room_id with
  | none =>
    have h0 : ((alookup st.room_status s.room_id).getD {}).last_status = none := by
      rw [halo]; rfl
    rw [applySample_first cfgs fetch st s h0]
    simp
  | some info =>
    cases hls : info.last_status with
    | none =>
      have h0 : ((alookup st.room_status s.room_id).getD {}).last_status = none := by
        rw [halo]; exact hls
      rw [applySample_first cfgs fetch st s h0]
      simp [hls]
    | some last =>
      have h0 : ((alookup st.room_status s.room_id).getD {}).last_status = some last := by
        rw [halo]; exact hls
      by_cases he : s.live_status = last
      · rw [applySample_same cfgs fetch st s last h0 he]
        simp [hls]
        exact he.symm
      · rw [applySample_change cfgs fetch st s last h0 he]
        simp [hls]
        exact fun hq => he hq.symm

/-- Witness for `transition_event_iff`: the first sample for a fresh room
produces no event. -/
theorem transition_event_iff_witness :
    (applySample [] (fun _ => none) ⟨[], []⟩ (some ⟨S "9", 1, 5, 6⟩)).2 = none :=
  (transition_event_iff [] (fun _ => none) ⟨[], []⟩ ⟨S "9", 1, 5, 6⟩).2 rfl

/-- The C4 invariant: in a room-state map, every entry has `live_start_time`
set exactly when its `last_status` is live (`1`). -/
def liveInv (room_status : List (Str × RoomState)) : Prop :=
  ∀ q ∈ room_status,
    ((q : Str × RoomState).2.live_start_time.isSome ↔ q.2.last_status = some 1)

theorem liveInv_getD (rs : List (Str × RoomState)) (r : Str) (h : liveInv rs) :
    ((alookup rs r).getD {}).live_start_time.isSome
      ↔ ((alookup rs r).getD {}).last_status = some 1 := by
  induction rs with
  | nil => simp [alookup]
  | cons q rest ih =>
    obtain ⟨k, v⟩ := q
    by_cases hk : k = r
    · simp only [alookup, if_pos hk, Option.getD_some]
      exact h (k, v) (List.mem_cons_self _ _)
    · simp only [alookup, if_neg hk]
      exact ih (fun q hq => h q (List.mem_cons_of_mem _ hq))

theorem liveInv_preserved (cfgs : List RoomConfig) (fetch : AnchorFetch)
    (st : MonitorState) (res : Option Sample) (h : liveInv st.room_status) :
    liveInv (applySample cfgs fetch st res).1.room_status := by
  cases res with
  | none => exact h
  | some s =>
    cases hls : ((alookup st.room_status s.room_id).getD {}).last_status with
    | none =>
      rw [applySample_first cfgs fetch st s hls]
      intro q hq
      rcases aset_mem _ _ _ q hq with h1 | h1
      · subst h1
        by_cases h1 : s.live_status = 1
        · simp [h1]
        · have hold : ((alookup st.room_status s.room_id).getD {}).live_start_time = none := by
            have := (liveInv_getD st.room_status s.room_id h).2
            cases hlt : ((alookup st.room_status s.room_id).getD {}).live_start_time with
            | none => rfl
            | some t =>
              have h2 := (liveInv_getD st.room_status s.room_id h).1 (by rw [hlt]; rfl)
              rw [hls] at h2; cases h2
          simp [h1, hold]
      · exact h q h1
    | some last =>
      by_cases he : s.live_status = last
      · rw [applySample_same cfgs fetch st s last hls he]
        intro q hq
        rcases aset_mem _ _ _ q hq with h1 | h1
        · subst h1
          simpa using liveInv_getD st.room_status s.room_id h
        · exact h q h1
      · rw [applySample_change cfgs fetch st s last hls he]
        intro q hq
        simp only at hq
        rcases aset_mem _ _ _ q hq with h1 | h1
        · subst h1
          by_cases h1 : s.live_status = 1
          · cases hg : findGroup cfgs s.room_id with
            | none => simp [hg, h1]
            | some g =>
              by_cases hge : g = [] <;> simp [hg, h1, hge]
          · cases hg : findGroup cfgs s.room_id with
            | none => simp [hg, h1]
            | some g => by_cases hge : g = [] <;> simp [hg, h1, hge]
        · exact h q h1

/-- C4: `live_start_time` is non-null exactly while `last_status` is live, in
every state reachable by any sequence of samples from the initial empty map;
and a transition to offline clears it in that same step. -/
theorem live_start_iff_live :
    (∀ (cfgs : List RoomConfig) (fetch : AnchorFetch) (st : MonitorState)
        (res : Option Sample), liveInv st.room_status →
        liveInv (applySample cfgs fetch st res).1.room_status)
    ∧ (∀ (cfgs : List RoomConfig) (fetch : AnchorFetch) (cache : List (Str × Str))
        (results : List (Option Sample)),
        liveInv (monitorCycle cfgs fetch ⟨[], cache⟩ results).room_status)
    ∧ (∀ (cfgs : List RoomConfig) (fetch : AnchorFetch) (st : MonitorState)
        (s : Sample) (ev : TransitionEvent),
        (applySample cfgs fetch st (some s)).2 = some ev → ev.became_live = false →
        ∃ info, alookup (applySample cfgs fetch st (some s)).1.room_status s.room_id
            = some info ∧ info.live_start_time = none) := by
  refine ⟨liveInv_preserved, ?_, ?_⟩
  · intro cfgs fetch cache results
    have hrun : ∀ (st : MonitorState), liveInv st.room_status →
        liveInv (monitorCycle cfgs fetch st results).room_status := by
      unfold monitorCycle
      induction results with
      | nil => intro st h; exact h
      | cons rhd rtl ih =>
        intro st h
        exact ih _ (liveInv_preserved cfgs fetch st rhd h)
    exact hrun ⟨[], cache⟩ (by intro q hq; cases hq)
  · intro cfgs fetch st s ev hev hoff
    cases hls : ((alookup st.room_status s.room_id).getD {}).last_status with
    | none =>
      rw [applySample_first cfgs fetch st s hls] at hev
      cases hev
    | some last =>
      by_cases he : s.live_status = last
      · rw [applySample_same cfgs fetch st s last hls he] at hev
        cases hev
      · have hch := applySample_change cfgs fetch st s last hls he
        have hlive : ¬ s.live_status = 1 := by
          rw [hch] at hev
          simp only at hev
          injection hev with hev
          rw [← hev] at hoff
          simpa using hoff
        rw [hch]
        simp only
        refine ⟨_, alookup_aset_self _ _ _, ?_⟩
        cases hg : findGroup cfgs s.room_id with
        | none => simp [hg, hlive]
        | some g => by_cases hge : g = [] <;> simp [hg, hge, hlive]

/-- Witness for `live_start_iff_live`: a live room going offline has its
start time cleared in that step. -/
theorem live_start_iff_live_witness :
    ∃ info, alookup (applySample [] (fun _ => none)
        (monitorCycle [] (fun _ => none) ⟨[], []⟩ [some ⟨S "1", 1, 7, 0⟩])
        (some ⟨S "1", 0, 0, 5⟩)).1.room_status (S "1") = some info
      ∧ info.live_start_time = none :=
  live_start_iff_live.2.2 [] (fun _ => none) _ ⟨S "1", 0, 0, 5⟩
    ⟨S "1", false, S "主播1 的直播已结束。"⟩ (by decide) rfl

/-! ### Failure isolation in one cycle -/

theorem applySample_room_status_aset (cfgs : List RoomConfig) (fetch : AnchorFetch)
    (st : MonitorState) (s : Sample) :
    ∃ ri, (applySample cfgs fetch st (some s)).1.room_status
        = aset st.room_status s.room_id ri := by
  cases hls : ((alookup st.room_status s.room_id).getD {}).last_status with
  | none => rw [applySample_first cfgs fetch st s hls]; exact ⟨_, rfl⟩
  | some last =>
    by_cases he : s.live_status = last
    · rw [applySample_same cfgs fetch st s last hls he]; exact ⟨_, rfl⟩
    · rw [applySample_change cfgs fetch st s last hls he]; exact ⟨_, rfl⟩

/-- C6: a failed fetch is skipped: dropping a `none` result from a cycle does
not change the cycle's outcome at all (so it affects no other room), and a
room all of whose results failed has exactly its previous state after the
cycle. -/
theorem failed_fetch_frame :
    (∀ (cfgs : List RoomConfig) (fetch : AnchorFetch) (st : MonitorState)
        (l1 l2 : List (Option Sample)),
        monitorCycle cfgs fetch st (l1 ++ none :: l2)
          = monitorCycle cfgs fetch st (l1 ++ l2))
    ∧ (∀ (cfgs : List RoomConfig) (fetch : AnchorFetch) (st : MonitorState)
        (results : List (Option Sample)) (r : Str),
        (∀ s : Sample, some s ∈ results → s.room_id ≠ r) →
        alookup (monitorCycle cfgs fetch st results).room_status r
          = alookup st.room_status r) := by
  constructor
  · intro cfgs fetch st l1 l2
    unfold monitorCycle
    rw [List.foldl_append, List.foldl_append, List.foldl_cons]
    rfl
  · intro cfgs fetch st results r
    have main : ∀ (res2 : List (Option Sample)) (st2 : MonitorState),
        (∀ s : Sample, some s ∈ res2 → s.room_id ≠ r) →
        alookup (monitorCycle cfgs fetch st2 res2).room_status r
          = alookup st2.room_status r := by
      intro res2
      induction res2 with
      | nil => intro st2 _; rfl
      | cons rhd rtl ih =>
        intro st2 hno
        unfold monitorCycle
        rw [List.foldl_cons]
        have hrest : ∀ s : Sample, some s ∈ rtl → s.room_id ≠ r :=
          fun s hs => hno s (List.mem_cons_of_mem _ hs)
        have hstep := ih ((applySample cfgs fetch st2 rhd).1) hrest
        unfold monitorCycle at hstep
        rw [hstep]
        cases rhd with
        | none => rfl
        | some s =>
          obtain ⟨ri, hri⟩ := applySample_room_status_aset cfgs fetch st2 s
          rw [hri]
          exact alookup_aset_ne _ _ _ _ (Ne.symm (hno s (List.mem_cons_self _ _)))
    exact main results st

/-- Witness for `failed_fetch_frame`: after a cycle in which room 1's fetch
failed, room 1 still has no state entry even though room 2 was processed. -/
theorem failed_fetch_frame_witness :
    alookup (monitorCycle [] (fun _ => none) ⟨[], []⟩
        [some ⟨S "2", 1, 0, 0⟩, none]).room_status (S "1") = none := by
  rw [failed_fetch_frame.2 [] (fun _ => none) ⟨[], []⟩ _ (S "1") ?_]
  · rfl
  · intro s hs
    rcases List.mem_cons.mp hs with h | h
    · injection h with h2
      subst h2
      decide
    · simp at h

/-! ### Notification routing on a transition -/

theorem findGroup_first :
    ∀ (cfgs : List RoomConfig) (r g : Str), findGroup cfgs r = some g →
      ∃ pre c post, cfgs = pre ++ c :: post ∧ c.room_id = r ∧ c.group_id = g
        ∧ ∀ c2 ∈ pre, c2.room_id ≠ r := by
  intro cfgs
  induction cfgs with
  | nil => intro r g h; simp [findGroup] at h
  | cons c0 rest ih =>
    intro r g h
    by_cases hc : c0.room_id = r
    · rw [findGroup, if_pos hc] at h
      injection h with hg
      exact ⟨[], c0, rest, rfl, hc, hg, by simp⟩
    · rw [findGroup, if_neg hc] at h
      obtain ⟨pre, c, post, hsplit, hcr, hcg, hpre⟩ := ih r g h
      refine ⟨c0 :: pre, c, post, by rw [hsplit]; rfl, hcr, hcg, ?_⟩
      intro c2 hc2
      rcases List.mem_cons.mp hc2 with h1 | h1
      · subst h1; exact hc
      · exact hpre c2 h1

/-- C1 counterexample: two configuration entries both name room 1, targeting
g1 and g2; a live transition produces an event, yet g2 has nothing to drain
(only the first entry's group received the message). -/
theorem single_target_counterexample :
    ((applySample [⟨S "1", S "g1"⟩, ⟨S "1", S "g2"⟩] (fun _ => none)
        (monitorCycle [⟨S "1", S "g1"⟩, ⟨S "1", S "g2"⟩] (fun _ => none) ⟨[], []⟩
          [some ⟨S "1", 0, 0, 0⟩])
        (some ⟨S "1", 1, 10, 1⟩)).2.isSome = true)
    ∧ (drainGroup (applySample [⟨S "1", S "g1"⟩, ⟨S "1", S "g2"⟩] (fun _ => none)
        (monitorCycle [⟨S "1", S "g1"⟩, ⟨S "1", S "g2"⟩] (fun _ => none) ⟨[], []⟩
          [some ⟨S "1", 0, 0, 0⟩])
        (some ⟨S "1", 1, 10, 1⟩)).1.room_status (S "g2")).1 = [] := by decide

/-- C1 amended: when a sample for room r produces a transition event, the
message is appended to r's notification list exactly once, addressed to the
group of the first configuration entry whose room_id is r (and not at all if
there is no such entry or its group is the empty string); `findGroup` indeed
selects the first matching entry. -/
theorem first_target_enqueue :
    (∀ (cfgs : List RoomConfig) (fetch : AnchorFetch) (st : MonitorState)
        (s : Sample) (ev : TransitionEvent),
        (applySample cfgs fetch st (some s)).2 = some ev →
        ∃ info, alookup (applySample cfgs fetch st (some s)).1.room_status s.room_id
            = some info
          ∧ info.notifications
              = ((alookup st.room_status s.room_id).getD {}).notifications
                ++ (match findGroup cfgs s.room_id with
                    | some g => if g ≠ [] then [Notification.mk ev.message g] else []
                    | none => []))
    ∧ (∀ (cfgs : List RoomConfig) (r g : Str), findGroup cfgs r = some g →
        ∃ pre c post, cfgs = pre ++ c :: post ∧ c.room_id = r ∧ c.group_id = g
          ∧ ∀ c2 ∈ pre, c2.room_id ≠ r) := by
  refine ⟨?_, findGroup_first⟩
  intro cfgs fetch st s ev hev
  cases hls : ((alookup st.room_status s.room_id).getD {}).last_status with
  | none => rw [applySample_first cfgs fetch st s hls] at hev; cases hev
  | some last =>
    by_cases he : s.live_status = last
    · rw [applySample_same cfgs fetch st s last hls he] at hev; cases hev
    · have hch := applySample_change cfgs fetch st s last hls he
      rw [hch] at hev ⊢
      simp only at hev ⊢
      injection hev with hev
      refine ⟨_, alookup_aset_self _ _ _, ?_⟩
      rw [← hev]
      cases hg : findGroup cfgs s.room_id with
      | none => simp [hg]
      | some g => by_cases hge : g = [] <;> simp [hg, hge]

/-- Witness for `first_target_enqueue`: a concrete transition appends one
notification for the single configured group. -/
theorem first_target_enqueue_witness :
    ∃ info, alookup (applySample [⟨S "1", S "g1"⟩] (fun _ => none)
        (monitorCycle [⟨S "1", S "g1"⟩] (fun _ => none) ⟨[], []⟩
          [some ⟨S "1", 0, 0, 0⟩])
        (some ⟨S "1", 1, 10, 1⟩)).1.room_status (S "1") = some info
      ∧ info.notifications
          = ((alookup (monitorCycle [⟨S "1", S "g1"⟩] (fun _ => none) ⟨[], []⟩
              [some ⟨S "1", 0, 0, 0⟩]).room_status (S "1")).getD {}).notifications
            ++ (match findGroup [⟨S "1", S "g1"⟩] (S "1") with
                | some g => if g ≠ [] then
                    [Notification.mk (S "主播1 开播了！\n传送门：https://live.bilibili.com/1") g]
                  else []
                | none => []) :=
  first_target_enqueue.1 [⟨S "1", S "g1"⟩] (fun _ => none) _ ⟨S "1", 1, 10, 1⟩
    ⟨S "1", true, S "主播1 开播了！\n传送门：https://live.bilibili.com/1"⟩ (by decide)

/-! ### The notification queue -/

theorem foldl_listRemove_cons {α : Type} [DecidableEq α] (p : α → Bool) :
    ∀ (ms : List α) (a : α) (l : List α), (∀ m ∈ ms, p m = true) → p a = false →
      ms.foldl listRemove (a :: l) = a :: ms.foldl listRemove l := by
  intro ms
  induction ms with
  | nil => intro a l _ _; rfl
  | cons m ms ih =>
    intro a l hall hpa
    have hma : ¬ (a = m) := by
      intro he
      have hm := hall m (List.mem_cons_self _ _)
      rw [← he, hpa] at hm
      simp at hm
    rw [List.foldl_cons, List.foldl_cons, listRemove, if_neg hma]
    exact ih a (listRemove l m) (fun x hx => hall x (List.mem_cons_of_mem _ hx)) hpa

theorem foldl_listRemove_filter {α : Type} [DecidableEq α] (p : α → Bool) :
    ∀ l : List α, (l.filter p).foldl listRemove l = l.filter (fun a => ! p a) := by
  intro l
  induction l with
  | nil => rfl
  | cons a l ih =>
    by_cases hp : p a = true
    · rw [List.filter_cons_of_pos hp, List.filter_cons_of_neg (by simp [hp]),
        List.foldl_cons]
      have hr : listRemove (a :: l) a = l := by rw [listRemove, if_pos rfl]
      rw [hr, ih]
    · have hp2 : p a = false := by simpa using hp
      rw [List.filter_cons_of_neg hp, List.filter_cons_of_pos (by simp [hp2])]
      rw [foldl_listRemove_cons p (l.filter p) a l
        (fun m hm => List.of_mem_filter hm) hp2, ih]

theorem drainRoom_eq (g : Str) (notifs : List Notification) :
    drainRoom g notifs
      = ((notifs.filter (fun n => n.group_id = g)).map Notification.message,
         notifs.filter (fun n => ¬ (n.group_id = g))) := by
  unfold drainRoom
  dsimp only
  rw [foldl_listRemove_filter]
  simp [decide_not]

theorem drainGroup_eq :
    ∀ (rs : List (Str × RoomState)) (g : Str),
      drainGroup rs g
        = ((rs.map (fun q =>
             (q.2.notifications.filter (fun n => n.group_id = g)).map
               Notification.message)).flatten,
           rs.map (fun q =>
             (q.1, { q.2 with notifications :=
                 q.2.notifications.filter (fun n => ¬ (n.group_id = g)) }))) := by
  intro rs g
  induction rs with
  | nil => rfl
  | cons q rest ih =>
    obtain ⟨r, info⟩ := q
    rw [drainGroup, drainRoom_eq, ih]
    simp

theorem flatten_nil_of_all {α : Type} :
    ∀ l : List (List α), (∀ x ∈ l, x = []) → l.flatten = [] := by
  intro l
  induction l with
  | nil => intro _; rfl
  | cons x xs ih =>
    intro h
    rw [List.flatten_cons, h x (List.mem_cons_self _ _), List.nil_append]
    exact ih (fun y hy => h y (List.mem_cons_of_mem _ hy))

theorem map_congr_mem {α β : Type} (f g : α → β) :
    ∀ l : List α, (∀ a ∈ l, f a = g a) → l.map f = l.map g := by
  intro l
  induction l with
  | nil => intro _; rfl
  | cons a as ih =>
    intro h
    rw [List.map_cons, List.map_cons, h a (List.mem_cons_self _ _),
      ih (fun b hb => h b (List.mem_cons_of_mem _ hb))]

theorem drain_drained_aux (g : Str) :
    ∀ notifs : List Notification,
      (notifs.filter (fun n => ¬ (n.group_id = g))).filter (fun n => n.group_id = g) = []
      ∧ (notifs.filter (fun n => ¬ (n.group_id = g))).filter (fun n => ¬ (n.group_id = g))
          = notifs.filter (fun n => ¬ (n.group_id = g)) := by
  intro notifs
  induction notifs with
  | nil => exact ⟨rfl, rfl⟩
  | cons n rest ih =>
    by_cases h : n.group_id = g
    · simp [h, ih.1, ih.2]
    · simp [h, ih.1, ih.2]

/-- C5 amended: one drain returns, for each room in room_status order, that
room's buffered messages for the target in per-room FIFO order, concatenated
room by room; exactly those entries are removed; and an immediately repeated
drain returns the empty sequence and changes nothing. -/
theorem drain_spec :
    ∀ (rs : List (Str × RoomState)) (g : Str),
      (drainGroup rs g).1 = (rs.map (fun q =>
          (q.2.notifications.filter (fun n => n.group_id = g)).map
            Notification.message)).flatten
      ∧ (drainGroup rs g).2 = rs.map (fun q =>
          (q.1, { q.2 with notifications :=
              q.2.notifications.filter (fun n => ¬ (n.group_id = g)) }))
      ∧ drainGroup (drainGroup rs g).2 g = ([], (drainGroup rs g).2) := by
  intro rs g
  refine ⟨by rw [drainGroup_eq], by rw [drainGroup_eq], ?_⟩
  rw [drainGroup_eq rs g]
  simp only
  rw [drainGroup_eq]
  rw [List.map_map, List.map_map]
  simp only [Prod.mk.injEq]
  constructor
  · apply flatten_nil_of_all
    intro x hx
    obtain ⟨q, hq, hqx⟩ := List.mem_map.mp hx
    rw [← hqx]
    simp only [Function.comp]
    rw [(drain_drained_aux g q.2.notifications).1]
    rfl
  · apply map_congr_mem
    intro q hq
    simp only [Function.comp]
    rw [(drain_drained_aux g q.2.notifications).2]

/-- C5 counterexample: with rooms 1 and 2 both configured for group g and the
enqueue order (room 1 live, room 2 live, room 1 offline), one drain returns
the messages grouped by room, not in global per-target FIFO enqueue order. -/
theorem drain_order_counterexample :
    (drainGroup (monitorCycle [⟨S "1", S "g"⟩, ⟨S "2", S "g"⟩]
        (fun r => some (0, S "A" ++ r)) ⟨[], []⟩
        [some ⟨S "1", 0, 0, 0⟩, some ⟨S "2", 0, 0, 1⟩,
         some ⟨S "1", 1, 10, 2⟩, some ⟨S "2", 1, 20, 3⟩,
         some ⟨S "1", 0, 0, 4⟩]).room_status (S "g")).1
      = [S "A1 开播了！\n传送门：https://live.bilibili.com/1",
         S "A1 的直播已结束。",
         S "A2 开播了！\n传送门：https://live.bilibili.com/2"]
    ∧ [S "A1 开播了！\n传送门：https://live.bilibili.com/1",
       S "A1 的直播已结束。",
       S "A2 开播了！\n传送门：https://live.bilibili.com/2"]
      ≠ [S "A1 开播了！\n传送门：https://live.bilibili.com/1",
         S "A2 开播了！\n传送门：https://live.bilibili.com/2",
         S "A1 的直播已结束。"] := by decide

/-! ### The anchor-name cache -/

/-- C2 counterexample: with 1 ↦ A already cached, resolution returns the
freshly fetched B, not the cached name; and after a failed fetch the fallback
is returned but not stored in the cache. -/
theorem anchor_cache_counterexample :
    (get_anchor_info (fun _ => some (0, S "B")) [(S "1", S "A")] (S "1")).1 = S "B"
    ∧ S "B" ≠ S "A"
    ∧ get_anchor_info (fun _ => none) [] (S "1") = (S "主播1", []) := by decide

/-- C2 amended: `get_anchor_info` never consults the cache: every call
performs the fetch; a code-0 response stores the fetched name (overwriting
any cached entry) and returns it; any failure returns the synthesized
fallback and leaves the cache untouched.  The cache is only read, without
fetching, by `get_live_info`, whose report uses the cached name or the same
fallback. -/
theorem anchor_cache_spec :
    (∀ (fetch : AnchorFetch) (cache : List (Str × Str)) (r uname : Str),
        fetch r = some (0, uname) →
        get_anchor_info fetch cache r = (uname, aset cache r uname))
    ∧ (∀ (fetch : AnchorFetch) (cache : List (Str × Str)) (r : Str),
        (fetch r = none ∨ ∃ code uname, fetch r = some (code, uname) ∧ code ≠ 0) →
        get_anchor_info fetch cache r = (S "主播" ++ r, cache))
    ∧ (∀ (res : Sample) (cache : List (Str × Str)) (rooms : List (Str × RoomState))
        (now : Nat) (fmt : Nat → Str) (r : Str),
        ∃ tail, get_live_info (some res) cache rooms now fmt r
          = S "主播: " ++ ((alookup cache r).getD (S "主播" ++ r)) ++ tail) := by
  refine ⟨?_, ?_, ?_⟩
  · intro fetch cache r uname h
    rw [get_anchor_info, h]
    simp
  · intro fetch cache r h
    rcases h with h | ⟨code, uname, h, hcode⟩
    · rw [get_anchor_info, h]
    · rw [get_anchor_info, h]
      simp [hcode]
  · intro res cache rooms now fmt r
    rw [get_live_info]
    dsimp only
    repeat' split
    all_goals simp only [List.append_assoc]
    all_goals exact ⟨_, rfl⟩

/-- Witness for `anchor_cache_spec`: a successful fetch stores the fetched
name in the previously empty cache and returns it. -/
theorem anchor_cache_spec_witness :
    get_anchor_info (fun _ => some (0, S "N")) [] (S "5") = (S "N", [(S "5", S "N")]) := by
  rw [anchor_cache_spec.1 (fun _ => some (0, S "N")) [] (S "5") (S "N") rfl]
  decide

/-! ### The snapshot query and the inbound handler -/

theorem filter_congr_mem {α : Type} (p q : α → Bool) :
    ∀ l : List α, (∀ a ∈ l, p a = q a) → l.filter p = l.filter q := by
  intro l
  induction l with
  | nil => intro _; rfl
  | cons a as ih =>
    intro h
    rw [List.filter_cons, List.filter_cons, h a (List.mem_cons_self _ _),
      ih (fun b hb => h b (List.mem_cons_of_mem _ hb))]

/-- C8: when the fresh status fetch fails, `get_live_info` returns the fixed
one-line unavailable report, whatever the cache and room-state map hold — in
particular also when no `RoomState` exists for the room. -/
theorem unavailable_report :
    ∀ (cache : List (Str × Str)) (rooms : List (Str × RoomState)) (now : Nat)
      (fmt : Nat → Str) (r : Str),
      get_live_info none cache rooms now fmt r
        = S "直播间 " ++ r ++ S "：无法获取直播信息"
      ∧ ('\n' ∉ r → '\n' ∉ get_live_info none cache rooms now fmt r) := by
  intro cache rooms now fmt r
  refine ⟨rfl, ?_⟩
  intro hr hmem
  have hm : '\n' ∈ S "直播间 " ++ r ++ S "：无法获取直播信息" := hmem
  rcases List.mem_append.mp hm with h1 | h1
  · rcases List.mem_append.mp h1 with h2 | h2
    · exact absurd h2 (by decide)
    · exact hr h2
  · exact absurd h1 (by decide)

/-- Witness for `unavailable_report` at a concrete room with no state. -/
theorem unavailable_report_witness :
    get_live_info none [] [] 0 (fun _ => []) (S "456")
      = S "直播间 " ++ S "456" ++ S "：无法获取直播信息"
    ∧ '\n' ∉ get_live_info none [] [] 0 (fun _ => []) (S "456") :=
  ⟨(unavailable_report [] [] 0 (fun _ => []) (S "456")).1,
   (unavailable_report [] [] 0 (fun _ => []) (S "456")).2 (by decide)⟩

/-- C9 counterexample: the inbound text " liveinfo" is not an exact
case-insensitive match of liveinfo, yet it triggers the snapshot branch and
produces a reply even though no notification is pending. -/
theorem liveinfo_match_counterexample :
    pyLower (S " liveinfo") ≠ S "liveinfo"
    ∧ (on_group_message [⟨S "1", S "g"⟩] (fun _ => none) [] [] 0 (fun _ => [])
        (S "g") (S " liveinfo")).1 ≠ [] := by decide

/-- C9 amended: an inbound text whose whitespace-stripped, lower-cased form
equals liveinfo first releases the group's pending notifications and then
adds one concatenated reply built from one snapshot report per configuration
entry for the sending group (a fixed notice if there is none); any other text
only drains the group's queue, with no reply when nothing is pending. -/
theorem inbound_handler_spec :
    ∀ (cfgs : List RoomConfig) (fs : Str → Option Sample) (cache : List (Str × Str))
      (rooms : List (Str × RoomState)) (now : Nat) (fmt : Nat → Str) (g msg : Str),
      (pyLower (pyStrip msg) = S "liveinfo" →
        ((on_group_message cfgs fs cache rooms now fmt g msg).1
          = (drainGroup rooms g).1
            ++ [ let info_lines := cfgs.filterMap (fun c =>
                  if c.group_id = g then
                    some (get_live_info (fs c.room_id) cache (drainGroup rooms g).2
                      now fmt c.room_id)
                  else none)
                 if info_lines.isEmpty then S "该群没有配置监控的直播间"
                 else S "直播间状态\n" ++ S "\n" ++ List.replicate 20 '='
                   ++ List.intercalate (S "\n") info_lines ]
        ∧ (cfgs.filterMap (fun c =>
              if c.group_id = g then
                some (get_live_info (fs c.room_id) cache (drainGroup rooms g).2
                  now fmt c.room_id)
              else none)).length
            = (cfgs.filter (fun c => c.group_id = g)).length))
      ∧ (pyLower (pyStrip msg) ≠ S "liveinfo" →
          on_group_message cfgs fs cache rooms now fmt g msg = drainGroup rooms g)
      ∧ (pyLower (pyStrip msg) ≠ S "liveinfo" → (drainGroup rooms g).1 = [] →
          (on_group_message cfgs fs cache rooms now fmt g msg).1 = []) := by
  intro cfgs fs cache rooms now fmt g msg
  refine ⟨?_, ?_, ?_⟩
  · intro h
    constructor
    · rw [on_group_message]
      by_cases hie : (cfgs.filterMap (fun c =>
          if c.group_id = g then
            some (get_live_info (fs c.room_id) cache (drainGroup rooms g).2
              now fmt c.room_id)
          else none)).isEmpty = true
      · simp [h, hie]
      · simp [h, hie]
    · rw [length_filterMap_eq]
      have hpt : ∀ c ∈ cfgs,
          ((if c.group_id = g then
              some (get_live_info (fs c.room_id) cache (drainGroup rooms g).2
                now fmt c.room_id)
            else none).isSome) = decide (c.group_id = g) := by
        intro c _
        by_cases hc : c.group_id = g <;> simp [hc]
      rw [filter_congr_mem _ _ cfgs hpt]
  · intro h
    rw [on_group_message]
    simp only [if_neg h]
  · intro h hempty
    rw [on_group_message]
    simp only [if_neg h, hempty]

/-- Witness for `inbound_handler_spec`: with no configured rooms, liveinfo
yields only the fixed no-rooms notice. -/
theorem inbound_handler_spec_witness :
    (on_group_message [] (fun _ => none) [] [] 0 (fun _ => []) (S "g")
        (S "liveinfo")).1 = [S "该群没有配置监控的直播间"] := by
  have h := ((inbound_handler_spec [] (fun _ => none) [] [] 0 (fun _ => [])
      (S "g") (S "liveinfo")).1 (by decide)).1
  simpa using h

end LiveMonitor
